import Mathlib

/-!
Verification of the API-key lifecycle and authentication core of the
`go-grafana` repository, shallowly embedded in Lean 4.

The embedding follows the Go source:
 * `internal/util/hash.go`            — key generation and SHA-256 hashing
 * `internal/domain/models/api_key.go`— the `APIKey` model and its helpers
 * `internal/domain/repository/api_key_repository.go` — the GORM-backed store
 * `internal/service/api_key_service.go` — the lifecycle service
 * `internal/middleware` (API key auth middleware) — the authentication gate

Machine integers are modelled as `Nat` reduced modulo `2 ^ 32` where the Go
code works on `uint32`; byte strings are `List Nat` with entries below 256;
wall-clock instants are modelled as `Int` (Go `time.Time` compared with
`After`, which is a strict order on instants); Go `error` results become
`Except String` carrying the exact message strings the source constructs,
since this codebase classifies errors by comparing message strings.
-/

deriving instance DecidableEq for Except

namespace GoGrafana

/-! ### `encoding/hex`: lowercase hexadecimal encoding -/

/-- The lowercase hex digit table used by Go `encoding/hex`
(`hextable = "0123456789abcdef"`). -/
def hextable : List Char := "0123456789abcdef".data

/-- One hex digit: `hextable[n]` (total, with an in-table default). -/
def hexDigit (n : Nat) : Char := hextable.getD n '0'

/-- `hex.EncodeToString` on a byte list: each byte becomes two lowercase
hex characters, high nibble first. -/
def hexEncodeChars : List Nat → List Char
  | [] => []
  | b :: bs => hexDigit (b / 16) :: hexDigit (b % 16) :: hexEncodeChars bs

/-- `hex.EncodeToString` producing a `String`. -/
def hexEncode (bs : List Nat) : String := String.mk (hexEncodeChars bs)

/-! ### `crypto/sha256` (FIPS 180-4), over byte lists -/

/-- Truncation to a 32-bit word. -/
def w32 (n : Nat) : Nat := n % 4294967296

/-- Right rotation of a 32-bit word by `n` places. -/
def rotR (n x : Nat) : Nat := w32 ((x >>> n) ||| (x <<< (32 - n)))

/-- The SHA-256 choice function on words. -/
def chWord (x y z : Nat) : Nat := (x &&& y) ^^^ ((x ^^^ 4294967295) &&& z)

/-- The SHA-256 majority function on words. -/
def majWord (x y z : Nat) : Nat := (x &&& y) ^^^ (x &&& z) ^^^ (y &&& z)

/-- The big Σ₀ mixing function. -/
def sigB0 (x : Nat) : Nat := rotR 2 x ^^^ rotR 13 x ^^^ rotR 22 x

/-- The big Σ₁ mixing function. -/
def sigB1 (x : Nat) : Nat := rotR 6 x ^^^ rotR 11 x ^^^ rotR 25 x

/-- The small σ₀ mixing function. -/
def sigS0 (x : Nat) : Nat := rotR 7 x ^^^ rotR 18 x ^^^ (x >>> 3)

/-- The small σ₁ mixing function. -/
def sigS1 (x : Nat) : Nat := rotR 17 x ^^^ rotR 19 x ^^^ (x >>> 10)

/-- The 64 SHA-256 round constants of FIPS 180-4 (in decimal). -/
def roundK : List Nat :=
  [1116352408, 1899447441, 3049323471, 3921009573, 961987163,
   1508970993, 2453635748, 2870763221, 3624381080, 310598401,
   607225278, 1426881987, 1925078388, 2162078206, 2614888103,
   3248222580, 3835390401, 4022224774, 264347078, 604807628,
   770255983, 1249150122, 1555081692, 1996064986, 2554220882,
   2821834349, 2952996808, 3210313671, 3336571891, 3584528711,
   113926993, 338241895, 666307205, 773529912, 1294757372,
   1396182291, 1695183700, 1986661051, 2177026350, 2456956037,
   2730485921, 2820302411, 3259730800, 3345764771, 3516065817,
   3600352804, 4094571909, 275423344, 430227734, 506948616,
   659060556, 883997877, 958139571, 1322822218, 1537002063,
   1747873779, 1955562222, 2024104815, 2227730452, 2361852424,
   2428436474, 2756734187, 3204031479, 3329325298]

/-- The eight SHA-256 initial hash words of FIPS 180-4 (in decimal). -/
def initH : List Nat :=
  [1779033703, 3144134277, 1013904242, 2773480762,
   1359893119, 2600822924, 528734635, 1541459225]

/-- Group a byte list into 32-bit big-endian words. -/
def toWords : List Nat → List Nat
  | a :: b :: c :: d :: rest =>
      (a * 16777216 + b * 65536 + c * 256 + d) :: toWords rest
  | _ => []

/-- Extend sixteen message words by `n` more schedule words; the accumulator
holds the words produced so far in reverse order. -/
def schedAux : Nat → List Nat → List Nat
  | 0, rws => rws.reverse
  | n + 1, rws =>
      schedAux n
        (w32 (sigS1 (rws.getD 1 0) + rws.getD 6 0 +
              sigS0 (rws.getD 14 0) + rws.getD 15 0) :: rws)

/-- The 64-word SHA-256 message schedule of one block. -/
def schedule (ws : List Nat) : List Nat := schedAux 48 ws.reverse

/-- One SHA-256 compression round on the state `[a,b,c,d,e,f,g,h]`. -/
def round (st : List Nat) (kt wt : Nat) : List Nat :=
  match st with
  | [a, b, c, d, e, f, g, h] =>
      let t1 := w32 (h + sigB1 e + chWord e f g + kt + wt)
      let t2 := w32 (sigB0 a + majWord a b c)
      [w32 (t1 + t2), a, b, c, w32 (d + t1), e, f, g]
  | other => other

/-- Fold the 64 compression rounds over the round constants and schedule. -/
def compressWords : List Nat → List Nat → List Nat → List Nat
  | st, k :: ks, w :: ws => compressWords (round st k w) ks ws
  | st, _, _ => st

/-- Compress one 64-byte block into the running hash state. -/
def compress (hs : List Nat) (block : List Nat) : List Nat :=
  List.zipWith (fun a b => w32 (a + b)) hs
    (compressWords hs roundK (schedule (toWords block)))

/-- Process `n` 64-byte blocks of the (padded) message. -/
def sha256Blocks (hs : List Nat) (msg : List Nat) : Nat → List Nat
  | 0 => hs
  | n + 1 => sha256Blocks (compress hs (msg.take 64)) (msg.drop 64) n

/-- The big-endian 8-byte encoding of the message bit length. -/
def lenBytes (n : Nat) : List Nat :=
  [(8 * n >>> 56) % 256, (8 * n >>> 48) % 256, (8 * n >>> 40) % 256,
   (8 * n >>> 32) % 256, (8 * n >>> 24) % 256, (8 * n >>> 16) % 256,
   (8 * n >>> 8) % 256, (8 * n) % 256]

/-- SHA-256 padding: a `0x80` byte, zeros to 56 mod 64, then the bit length. -/
def pad (msg : List Nat) : List Nat :=
  msg ++ 0x80 :: List.replicate ((119 - msg.length % 64) % 64) 0 ++
    lenBytes msg.length

/-- A 32-bit word as four big-endian bytes. -/
def wordToBytes (w : Nat) : List Nat :=
  [(w >>> 24) % 256, (w >>> 16) % 256, (w >>> 8) % 256, w % 256]

/-- SHA-256 of a byte list, as the 32-byte digest. -/
def sha256 (msg : List Nat) : List Nat :=
  ((sha256Blocks initH (pad msg) ((pad msg).length / 64)).map wordToBytes).flatten

/-! ### UTF-8 encoding of strings (Go strings are UTF-8 byte slices) -/

/-- UTF-8 encoding of one Unicode scalar value. -/
def utf8EncodeChar (c : Nat) : List Nat :=
  if c < 0x80 then [c]
  else if c < 0x800 then
    [0xC0 ||| (c >>> 6), 0x80 ||| (c &&& 0x3F)]
  else if c < 0x10000 then
    [0xE0 ||| (c >>> 12), 0x80 ||| ((c >>> 6) &&& 0x3F), 0x80 ||| (c &&& 0x3F)]
  else
    [0xF0 ||| (c >>> 18), 0x80 ||| ((c >>> 12) &&& 0x3F),
     0x80 ||| ((c >>> 6) &&& 0x3F), 0x80 ||| (c &&& 0x3F)]

/-- The UTF-8 bytes of a string. -/
def strToUTF8 (s : String) : List Nat :=
  (s.data.map (fun ch => utf8EncodeChar ch.toNat)).flatten

/-! ### `internal/util/hash.go` -/

/-- `GenerateAPIKey` from `internal/util/hash.go`: 32 random bytes, hex
encoded, with the literal tag `"sk-"` in front.  The random source is made
explicit: the caller supplies the 32 bytes that `crypto/rand.Read` produced
(we model the successful read; the only failure mode of the Go function is a
failing entropy source). -/
def GenerateAPIKey (bytes : List Nat) : String :=
  "sk-" ++ hexEncode bytes

/-- `HashAPIKey` from `internal/util/hash.go`: lowercase hex encoding of the
SHA-256 digest of the UTF-8 bytes of the key. -/
def HashAPIKey (key : String) : String :=
  hexEncode (sha256 (strToUTF8 key))

/-! ### `internal/domain/models/api_key.go` -/

/-- The `APIKey` entity.  `key` stores the hash of the secret (the Go field
is `Key string gorm:"uniqueIndex;not null"`); `expiresAt` is the optional
expiry instant; `deletedAt` is GORM's soft-delete marker. -/
structure APIKey where
  id : Nat
  name : String
  key : String
  description : String
  active : Bool
  expiresAt : Option Int
  createdAt : Int
  updatedAt : Int
  deletedAt : Option Int
deriving DecidableEq

/-- `CreateAPIKeyRequest`. -/
structure CreateAPIKeyRequest where
  name : String
  description : String
  expiresAt : Option Int
deriving DecidableEq

/-- `UpdateAPIKeyRequest`. -/
structure UpdateAPIKeyRequest where
  name : String
  description : String
  active : Bool
  expiresAt : Option Int
deriving DecidableEq

/-- `APIKeyResponse`. -/
structure APIKeyResponse where
  id : Nat
  name : String
  key : String
  description : String
  active : Bool
  expiresAt : Option Int
  createdAt : Int
  updatedAt : Int
deriving DecidableEq

/-- `APIKey.IsExpired`: true when `time.Now().After(*ak.ExpiresAt)`, i.e.
when the current instant is strictly after the expiry; a key with no expiry
never expires.  `now` makes the Go call to `time.Now()` explicit. -/
def APIKey.IsExpired (ak : APIKey) (now : Int) : Bool :=
  match ak.expiresAt with
  | none => false
  | some e => decide (now > e)

/-- `APIKey.IsValid`: active and not expired. -/
def APIKey.IsValid (ak : APIKey) (now : Int) : Bool :=
  ak.active && !(ak.IsExpired now)

/-- `APIKey.ToResponseWithKey`: response that carries the plaintext key
(used only at creation time). -/
def APIKey.ToResponseWithKey (ak : APIKey) (plainTextKey : String) : APIKeyResponse :=
  { id := ak.id, name := ak.name, key := plainTextKey,
    description := ak.description, active := ak.active,
    expiresAt := ak.expiresAt, createdAt := ak.createdAt,
    updatedAt := ak.updatedAt }

/-- `APIKey.ToResponseWithoutKey`: response with the key masked as `"***"`. -/
def APIKey.ToResponseWithoutKey (ak : APIKey) : APIKeyResponse :=
  { id := ak.id, name := ak.name, key := "***",
    description := ak.description, active := ak.active,
    expiresAt := ak.expiresAt, createdAt := ak.createdAt,
    updatedAt := ak.updatedAt }

/-- `APIKey.FromCreateRequest` on the zero-valued `&models.APIKey{}` the
service allocates: copies name/description/expiry, defaults `active` to
true, generates a fresh key from the supplied random bytes and stores only
its hash; returns the populated record and the plaintext key. -/
def APIKey.FromCreateRequest (req : CreateAPIKeyRequest) (randomBytes : List Nat) :
    APIKey × String :=
  let plainTextKey := GenerateAPIKey randomBytes
  ({ id := 0, name := req.name, key := HashAPIKey plainTextKey,
     description := req.description, active := true,
     expiresAt := req.expiresAt, createdAt := 0, updatedAt := 0,
     deletedAt := none }, plainTextKey)

/-- `APIKey.FromUpdateRequest`: overwrite name, description, active and
expiry from the request, leaving every other field as it was. -/
def APIKey.FromUpdateRequest (ak : APIKey) (req : UpdateAPIKeyRequest) : APIKey :=
  { ak with
    name := req.name
    description := req.description
    active := req.active
    expiresAt := req.expiresAt }

/-! ### `internal/domain/repository/api_key_repository.go`

The GORM-backed store is modelled as a list of rows plus the next
auto-increment identity.  GORM's default scope hides soft-deleted rows from
queries, so every lookup filters on `deletedAt = none`; `First` returns the
earliest match in primary-key order, which is the insertion order of the
row list here. -/

/-- A row matches a hash lookup when it is not soft-deleted and its stored
hash equals the probe. -/
def rowHasKey (k : String) (r : APIKey) : Bool :=
  r.deletedAt.isNone && r.key == k

/-- A row matches an ID lookup when it is not soft-deleted and its ID
equals the probe. -/
def rowHasId (id : Nat) (r : APIKey) : Bool :=
  r.deletedAt.isNone && r.id == id

/-- The database state behind `apiKeyRepository`. -/
structure DB where
  rows : List APIKey
  nextId : Nat
deriving DecidableEq

/-- `ExistsByKey`: counts non-deleted rows with the given stored hash;
an empty probe short-circuits to false. -/
def ExistsByKey (db : DB) (key : String) : Bool :=
  if key = "" then false
  else decide (0 < (db.rows.filter (rowHasKey key)).length)

/-- `Create`: rejects an empty name, an empty hash, and a duplicate hash;
otherwise inserts the record, assigning identity and timestamps.  Returns
the new state and the stored record (the Go code mutates `apiKey` through
the pointer). -/
def Repo.Create (db : DB) (now : Int) (apiKey : APIKey) :
    Except String (DB × APIKey) :=
  if apiKey.name = "" then .error "name is required"
  else if apiKey.key = "" then .error "key is required"
  else if ExistsByKey db apiKey.key then .error "API key already exists"
  else
    let stored := { apiKey with
      id := if apiKey.id = 0 then db.nextId else apiKey.id
      createdAt := now
      updatedAt := now }
    .ok ({ rows := db.rows ++ [stored], nextId := db.nextId + 1 }, stored)

/-- `GetByID`: zero IDs are invalid; otherwise the first non-deleted row
with that ID, or "API key not found". -/
def Repo.GetByID (db : DB) (id : Nat) : Except String APIKey :=
  if id = 0 then .error "invalid API key ID"
  else
    match db.rows.find? (rowHasId id) with
    | some r => .ok r
    | none => .error "API key not found"

/-- `GetByKey`: an empty probe is invalid; otherwise the first non-deleted
row with that stored hash, or "API key not found". -/
def Repo.GetByKey (db : DB) (key : String) : Except String APIKey :=
  if key = "" then .error "key is required"
  else
    match db.rows.find? (rowHasKey key) with
    | some r => .ok r
    | none => .error "API key not found"

/-- `Update`: validates the ID and name, fetches the existing row, copies
only name/description/active/expiry onto it (never the key), saves it (the
store refreshing `updatedAt`), and copies the saved row back to the caller's
record.  Returns the new state and that saved record. -/
def Repo.Update (db : DB) (now : Int) (apiKey : APIKey) :
    Except String (DB × APIKey) :=
  if apiKey.id = 0 then .error "invalid API key ID"
  else if apiKey.name = "" then .error "name is required"
  else
    match Repo.GetByID db apiKey.id with
    | .error e => .error e
    | .ok existing =>
      let saved := { existing with
        name := apiKey.name
        description := apiKey.description
        active := apiKey.active
        expiresAt := apiKey.expiresAt
        updatedAt := now }
      .ok ({ db with
        rows := db.rows.map (fun r => if rowHasId saved.id r then saved else r) },
        saved)

/-- `Delete`: validates the ID, checks existence, then soft-deletes the
row (GORM sets the `DeletedAt` marker rather than removing the row). -/
def Repo.Delete (db : DB) (now : Int) (id : Nat) : Except String DB :=
  if id = 0 then .error "invalid API key ID"
  else
    match Repo.GetByID db id with
    | .error e => .error e
    | .ok _ =>
      .ok { db with
        rows := db.rows.map
          (fun r => if rowHasId id r then { r with deletedAt := some now } else r) }

/-! ### `internal/service/api_key_service.go`

The service holds the repository behind an interface
(`apiKeyService{apiKeyRepo repository.APIKeyRepository}`), so the service
functions are parametrised by the repository operations they call; the
`Service.*` wrappers instantiate them with the GORM-backed store above. -/

/-- `ValidateAPIKey`, generic in the store's `GetByKey`: reject an empty
key, hash the presented key, look the hash up, and apply the
active/expiry policy.  A failed lookup becomes "invalid API key"; a found
but inactive-or-expired record becomes "API key is not valid". -/
def Service.ValidateAPIKeyWith (getByKey : String → Except String APIKey)
    (now : Int) (key : String) : Except String APIKey :=
  if key = "" then .error "API key is required"
  else
    match getByKey (HashAPIKey key) with
    | .error _ => .error "invalid API key"
    | .ok apiKey =>
      if !(apiKey.IsValid now) then .error "API key is not valid"
      else .ok apiKey

/-- `ValidateAPIKey` against the GORM-backed store. -/
def Service.ValidateAPIKey (db : DB) (now : Int) (key : String) :
    Except String APIKey :=
  Service.ValidateAPIKeyWith (Repo.GetByKey db) now key

/-- `CreateAPIKey`: requires a non-empty name, builds the record (fresh key
from the supplied random bytes), stores it, and answers with the response
carrying the plaintext key exactly once. -/
def Service.CreateAPIKey (db : DB) (now : Int) (randomBytes : List Nat)
    (req : CreateAPIKeyRequest) : Except String (DB × APIKeyResponse) :=
  if req.name = "" then .error "name is required"
  else
    match Repo.Create db now (APIKey.FromCreateRequest req randomBytes).1 with
    | .error e => .error e
    | .ok (db2, stored) =>
      .ok (db2, stored.ToResponseWithKey (APIKey.FromCreateRequest req randomBytes).2)

/-- `UpdateAPIKey`, generic in the store's `GetByID` and `Update`
(`σ` is the store-state the concrete `Update` threads through): validates
the ID and the name before any store call, fetches the record, applies
`FromUpdateRequest`, saves, and masks the key in the response. -/
def Service.UpdateAPIKeyWith (σ : Type)
    (getByID : Nat → Except String APIKey)
    (updateRec : APIKey → Except String (σ × APIKey))
    (id : Nat) (req : UpdateAPIKeyRequest) :
    Except String (σ × APIKeyResponse) :=
  if id = 0 then .error "invalid API key ID"
  else if req.name = "" then .error "name is required"
  else
    match getByID id with
    | .error e => .error e
    | .ok existing =>
      match updateRec (existing.FromUpdateRequest req) with
      | .error e => .error e
      | .ok (s, saved) => .ok (s, saved.ToResponseWithoutKey)

/-- `UpdateAPIKey` against the GORM-backed store. -/
def Service.UpdateAPIKey (db : DB) (now : Int) (id : Nat)
    (req : UpdateAPIKeyRequest) : Except String (DB × APIKeyResponse) :=
  Service.UpdateAPIKeyWith DB (Repo.GetByID db) (Repo.Update db now) id req

/-! ### `internal/middleware` — the API key authentication gate -/

/-- The values the middleware attaches to the request context on success
(`c.Set("api_key", …)`, `c.Set("api_key_id", …)`, `c.Set("api_key_name", …)`). -/
structure AuthContext where
  apiKey : APIKey
  apiKeyId : Nat
  apiKeyName : String
deriving DecidableEq

/-- The JSON body of a rejection. -/
structure ErrorBody where
  error : String
  message : String
deriving DecidableEq

/-- The observable outcome of the gate: either an aborted request with a
status and body (no downstream handler runs), or the request continues with
the attached context. -/
inductive AuthOutcome where
  | rejected (status : Nat) (body : ErrorBody)
  | allowed (ctx : AuthContext)
deriving DecidableEq

/-- Go `unicode.IsSpace` restricted to Latin-1 (the characters relevant to
HTTP header values): space, tab, newline, vertical tab, form feed,
carriage return, next line, and no-break space. -/
def isSpaceChar (c : Char) : Bool :=
  c == ' ' || c == '\t' || c == '\n' || c == Char.ofNat 11 ||
    c == Char.ofNat 12 || c == '\r' || c == Char.ofNat 0x85 ||
    c == Char.ofNat 0xA0

/-- Go `strings.TrimSpace`: remove leading and trailing whitespace. -/
def goTrimSpace (s : String) : String :=
  String.mk (((s.data.dropWhile isSpaceChar).reverse.dropWhile isSpaceChar).reverse)

/-- Go `strings.HasPrefix(s, "Bearer ")`. -/
def hasBearerTag : List Char → Bool
  | 'B' :: 'e' :: 'a' :: 'r' :: 'e' :: 'r' :: ' ' :: _ => true
  | _ => false

/-- Strip a leading `"Bearer "` tag (7 characters), re-trimming afterwards,
as the middleware does with `strings.HasPrefix` / `strings.TrimPrefix` /
`strings.TrimSpace`. -/
def stripBearer (s : String) : String :=
  if hasBearerTag s.data then goTrimSpace (String.mk (s.data.drop 7)) else s

/-- The middleware's credential normalisation: trim surrounding whitespace,
then strip a bearer tag. -/
def cleanAPIKeyHeader (header : String) : String :=
  stripBearer (goTrimSpace header)

/-- `APIKeyAuthMiddleware`, generic in the service's validation function
(the Go middleware receives the `APIKeyService` interface): an absent or
empty `X-API-Key` header aborts with 401; a header that normalises to the
empty string aborts with 401; otherwise the normalised credential is
delegated to `validate`, a failure aborts with 401, and a success attaches
the record, its ID and its name to the context and continues. -/
def APIKeyAuthMiddlewareWith (validate : String → Except String APIKey)
    (header : String) : AuthOutcome :=
  if header = "" then
    .rejected 401 ⟨"Unauthorized", "API key is required"⟩
  else if cleanAPIKeyHeader header = "" then
    .rejected 401 ⟨"Unauthorized", "API key cannot be empty"⟩
  else
    match validate (cleanAPIKeyHeader header) with
    | .error _ => .rejected 401 ⟨"Unauthorized", "Invalid API key"⟩
    | .ok validated => .allowed ⟨validated, validated.id, validated.name⟩

/-- The gate wired to the lifecycle service over the GORM-backed store. -/
def APIKeyAuthMiddleware (db : DB) (now : Int) (header : String) : AuthOutcome :=
  APIKeyAuthMiddlewareWith (Service.ValidateAPIKey db now) header

/-- No two non-deleted rows of the store share a stored hash. -/
def UniqueHashes (db : DB) : Prop :=
  db.rows.Pairwise
    (fun r1 r2 => r1.deletedAt = none → r2.deletedAt = none → r1.key ≠ r2.key)

/-! ### Concrete fixtures used in counterexamples and witnesses -/

/-- The empty store. -/
def dbEmpty : DB := { rows := [], nextId := 1 }

/-- A stored record for the secret `"k1"`, deactivated. -/
def akInactive : APIKey :=
  { id := 1, name := "svc-a", key := HashAPIKey "k1", description := "",
    active := false, expiresAt := none, createdAt := 0, updatedAt := 0,
    deletedAt := none }

/-- A store holding only the deactivated record. -/
def dbInactive : DB := { rows := [akInactive], nextId := 2 }

/-- A stored record for the secret `"k1"`, active, expiring at instant 5. -/
def akBoundary : APIKey :=
  { id := 1, name := "svc-b", key := HashAPIKey "k1", description := "",
    active := true, expiresAt := some 5, createdAt := 0, updatedAt := 0,
    deletedAt := none }

/-- A store holding only the expiring record. -/
def dbBoundary : DB := { rows := [akBoundary], nextId := 2 }

/-- A stored record for the secret `"k2"`, active, never expiring. -/
def akLive : APIKey :=
  { id := 1, name := "svc-c", key := HashAPIKey "k2", description := "",
    active := true, expiresAt := none, createdAt := 0, updatedAt := 0,
    deletedAt := none }

/-- A store holding only the live record. -/
def dbLive : DB := { rows := [akLive], nextId := 2 }

/-- A plain stored row (the hash value itself is irrelevant to the store). -/
def akRowA : APIKey :=
  { id := 1, name := "old-name", key := "h1", description := "old-descr",
    active := true, expiresAt := none, createdAt := 7, updatedAt := 7,
    deletedAt := none }

/-- A one-row store around `akRowA`. -/
def dbRowA : DB := { rows := [akRowA], nextId := 2 }

/-- An update payload against `akRowA` (its `key` field differs on purpose:
the store must not write it). -/
def akUpd : APIKey :=
  { id := 1, name := "new-name", key := "attacker-controlled",
    description := "new-descr", active := false, expiresAt := some 9,
    createdAt := 0, updatedAt := 0, deletedAt := none }

/-- A fresh record to insert. -/
def akNew : APIKey :=
  { id := 0, name := "fresh", key := "h2", description := "",
    active := true, expiresAt := none, createdAt := 0, updatedAt := 0,
    deletedAt := none }

/-- The record the service's create stores for a request with the given
name and description, no expiry, and the given entropy, once the store has
assigned identity and timestamps. -/
def createdRec (db : DB) (now : Int) (bytes : List Nat)
    (name descr : String) : APIKey :=
  { id := db.nextId, name := name, key := HashAPIKey (GenerateAPIKey bytes),
    description := descr, active := true, expiresAt := none,
    createdAt := now, updatedAt := now, deletedAt := none }

/-- The row `akRowA` after applying the update `akUpd` at instant 3. -/
def akSaved : APIKey :=
  { id := 1, name := "new-name", key := "h1", description := "new-descr",
    active := false, expiresAt := some 9, createdAt := 7, updatedAt := 3,
    deletedAt := none }

/-- The store `dbRowA` after that update. -/
def dbSaved : DB := { rows := [akSaved], nextId := 2 }

/-! ### Auxiliary lemmas -/

theorem getD_mem_or {α : Type} (l : List α) (n : Nat) (d : α) :
    l.getD n d ∈ l ∨ l.getD n d = d := by
  induction l generalizing n with
  | nil => right; rfl
  | cons a t ih =>
    cases n with
    | zero => left; exact List.mem_cons_self a t
    | succ m =>
      rcases ih m with h | h
      · left; exact List.mem_cons_of_mem a h
      · right; exact h

theorem hexDigit_mem (n : Nat) : hexDigit n ∈ hextable := by
  unfold hexDigit
  rcases getD_mem_or hextable n '0' with h | h
  · exact h
  · rw [h]; decide

theorem hexEncodeChars_length (bs : List Nat) :
    (hexEncodeChars bs).length = 2 * bs.length := by
  induction bs with
  | nil => rfl
  | cons b t ih => simp [hexEncodeChars, ih]; omega

theorem hexEncodeChars_mem (bs : List Nat) (c : Char)
    (h : c ∈ hexEncodeChars bs) : c ∈ hextable := by
  induction bs with
  | nil => cases h
  | cons b t ih =>
    rcases h with _ | ⟨_, h2⟩
    · exact hexDigit_mem (b / 16)
    · rcases h2 with _ | ⟨_, h3⟩
      · exact hexDigit_mem (b % 16)
      · exact ih h3

theorem hexEncode_length (bs : List Nat) : (hexEncode bs).length = 2 * bs.length := by
  show (hexEncodeChars bs).length = 2 * bs.length
  exact hexEncodeChars_length bs

theorem round_length (st : List Nat) (k w : Nat) :
    (round st k w).length = st.length := by
  unfold round
  split
  · rfl
  · rfl

theorem compressWords_length (ks : List Nat) :
    ∀ (ws st : List Nat), (compressWords st ks ws).length = st.length := by
  induction ks with
  | nil => intro ws st; rfl
  | cons k kt ih =>
    intro ws st
    cases ws with
    | nil => rfl
    | cons w wt =>
      show (compressWords (round st k w) kt wt).length = st.length
      rw [ih wt (round st k w), round_length]

theorem compress_length (hs block : List Nat) (h : hs.length = 8) :
    (compress hs block).length = 8 := by
  unfold compress
  rw [List.length_zipWith, compressWords_length, h]
  exact min_self 8

theorem sha256Blocks_length (n : Nat) :
    ∀ (hs msg : List Nat), hs.length = 8 → (sha256Blocks hs msg n).length = 8 := by
  induction n with
  | zero => intro hs msg h; exact h
  | succ m ih => intro hs msg h; exact ih _ _ (compress_length _ _ h)

theorem flatten_map_wordToBytes_length (l : List Nat) :
    ((l.map wordToBytes).flatten).length = 4 * l.length := by
  induction l with
  | nil => rfl
  | cons a t ih => simp [wordToBytes, ih]; omega

theorem sha256_length (msg : List Nat) : (sha256 msg).length = 32 := by
  unfold sha256
  rw [flatten_map_wordToBytes_length,
    sha256Blocks_length ((pad msg).length / 64) initH (pad msg) (by decide)]

theorem HashAPIKey_length (s : String) : (HashAPIKey s).length = 64 := by
  unfold HashAPIKey
  rw [hexEncode_length, sha256_length]

theorem HashAPIKey_ne_empty (s : String) : HashAPIKey s ≠ "" := by
  intro h
  have h2 := HashAPIKey_length s
  rw [h] at h2
  exact absurd h2 (by decide)

theorem GenerateAPIKey_length (bytes : List Nat) :
    (GenerateAPIKey bytes).length = 3 + 2 * bytes.length := by
  unfold GenerateAPIKey
  rw [String.length_append, hexEncode_length]
  norm_num [String.length]

theorem GenerateAPIKey_ne_empty (bytes : List Nat) : GenerateAPIKey bytes ≠ "" := by
  intro h
  have h2 := GenerateAPIKey_length bytes
  rw [h] at h2
  have h3 : (0 : Nat) = 3 + 2 * bytes.length := h2
  omega

theorem find?_append_of_forall_false {α : Type} (p : α → Bool) (l1 l2 : List α)
    (h : ∀ x ∈ l1, p x = false) : (l1 ++ l2).find? p = l2.find? p := by
  rw [List.find?_append, List.find?_eq_none.mpr, Option.none_or]
  intro x hx
  simp [h x hx]

theorem existsByKey_false_rows (db : DB) (k : String) (hk : k ≠ "")
    (h : ExistsByKey db k = false) : ∀ r ∈ db.rows, rowHasKey k r = false := by
  intro r hr
  unfold ExistsByKey at h
  rw [if_neg hk] at h
  simp only [decide_eq_false_iff_not, Nat.not_lt, Nat.le_zero,
    List.length_eq_zero, List.filter_eq_nil_iff] at h
  simpa using h r hr

/-! ### Claim theorems -/

/-- C3: validating the empty string always fails with the
credential-required message and never consults the store (the result is
the same for every store lookup function); for every non-empty input the
result is exactly the validity decision applied to the store's answer at
the SHA-256 hash of the input, so the store only influences validation
through its answer at that hash. -/
theorem validate_empty_input_contract :
    (∀ (getByKey : String → Except String APIKey) (now : Int),
      Service.ValidateAPIKeyWith getByKey now "" = .error "API key is required") ∧
    (∀ (getByKey : String → Except String APIKey) (now : Int) (key : String),
      key ≠ "" →
      Service.ValidateAPIKeyWith getByKey now key =
        match getByKey (HashAPIKey key) with
        | .error _ => .error "invalid API key"
        | .ok apiKey =>
          if !(apiKey.IsValid now) then .error "API key is not valid"
          else .ok apiKey) ∧
    (∀ (g1 g2 : String → Except String APIKey) (now : Int) (key : String),
      key ≠ "" → g1 (HashAPIKey key) = g2 (HashAPIKey key) →
      Service.ValidateAPIKeyWith g1 now key =
        Service.ValidateAPIKeyWith g2 now key) := by
  refine ⟨fun g now => rfl, fun g now key hk => ?_, fun g1 g2 now key hk hg => ?_⟩
  · unfold Service.ValidateAPIKeyWith
    rw [if_neg hk]
  · unfold Service.ValidateAPIKeyWith
    rw [if_neg hk, if_neg hk, hg]

/-- C3 witness: a concrete store function and non-empty input, discharged
through the contract. -/
theorem validate_empty_input_contract_witness :
    Service.ValidateAPIKeyWith (fun _ => .error "nope") 0 "k" =
      .error "invalid API key" := by
  rw [validate_empty_input_contract.2.1 (fun _ => .error "nope") 0 "k" (by decide)]

/-- C4: every generated plaintext secret has length 67, starts with the
characters `sk-`, and its remaining 64 characters are lowercase hex
digits. -/
theorem generate_key_format (bytes : List Nat) (hlen : bytes.length = 32) :
    (GenerateAPIKey bytes).length = 67 ∧
    (GenerateAPIKey bytes).data.take 3 = ['s', 'k', '-'] ∧
    ((GenerateAPIKey bytes).data.drop 3).length = 64 ∧
    ∀ c ∈ (GenerateAPIKey bytes).data.drop 3, c ∈ hextable := by
  have hdata : (GenerateAPIKey bytes).data = 's' :: 'k' :: '-' :: hexEncodeChars bytes := by
    unfold GenerateAPIKey
    rw [String.data_append]
    rfl
  refine ⟨?_, ?_, ?_, ?_⟩
  · rw [GenerateAPIKey_length bytes, hlen]
  · rw [hdata]
    rfl
  · rw [hdata]
    show (hexEncodeChars bytes).length = 64
    rw [hexEncodeChars_length, hlen]
  · rw [hdata]
    intro c hc
    exact hexEncodeChars_mem bytes c hc

/-- C4 witness: the format facts at a concrete 32-byte input. -/
theorem generate_key_format_witness :
    (GenerateAPIKey (List.replicate 32 0)).length = 67 ∧
    (GenerateAPIKey (List.replicate 32 0)).data.take 3 = ['s', 'k', '-'] ∧
    ((GenerateAPIKey (List.replicate 32 0)).data.drop 3).length = 64 ∧
    ∀ c ∈ (GenerateAPIKey (List.replicate 32 0)).data.drop 3, c ∈ hextable :=
  generate_key_format (List.replicate 32 0) (by decide)

/-- C5: the hash is a pure function equal to the lowercase hex encoding of
the SHA-256 digest of the UTF-8 bytes of the input (so it is deterministic
and salt-free: it has no input other than the key), its output always has
the 64-character digest shape, it agrees with the standard SHA-256 test
vector for the empty string, and concrete distinct inputs give distinct
digests. -/
theorem hash_deterministic_sha256 :
    (∀ s : String, HashAPIKey s = hexEncode (sha256 (strToUTF8 s))) ∧
    (∀ s : String, HashAPIKey s = HashAPIKey s) ∧
    (∀ s : String, (HashAPIKey s).length = 64) ∧
    HashAPIKey "" =
      "e3b0c44298fc1c149afbf4c8996fb92427ae41e4649b934ca495991b7852b855" ∧
    HashAPIKey "k1" ≠ HashAPIKey "k2" :=
  ⟨fun _ => rfl, fun _ => rfl, HashAPIKey_length, by decide, by decide⟩

/-- C9: the gate rejects with 401 and stops (no downstream handler) when
the header is absent/empty or normalises to empty; otherwise it delegates
the normalised credential to the validation function, rejects with 401 on
failure, and on success attaches the resolved record with its ID and name
to the context and continues.  Normalisation is trim-then-strip-bearer,
and the deployed gate is exactly this middleware applied to the lifecycle
service's validation. -/
theorem auth_gate_contract (validate : String → Except String APIKey)
    (header : String) :
    (header = "" → APIKeyAuthMiddlewareWith validate header =
      .rejected 401 ⟨"Unauthorized", "API key is required"⟩) ∧
    (header ≠ "" → cleanAPIKeyHeader header = "" →
      APIKeyAuthMiddlewareWith validate header =
      .rejected 401 ⟨"Unauthorized", "API key cannot be empty"⟩) ∧
    (header ≠ "" → cleanAPIKeyHeader header ≠ "" → ∀ e,
      validate (cleanAPIKeyHeader header) = .error e →
      APIKeyAuthMiddlewareWith validate header =
      .rejected 401 ⟨"Unauthorized", "Invalid API key"⟩) ∧
    (header ≠ "" → cleanAPIKeyHeader header ≠ "" → ∀ ak,
      validate (cleanAPIKeyHeader header) = .ok ak →
      APIKeyAuthMiddlewareWith validate header =
        .allowed ⟨ak, ak.id, ak.name⟩) ∧
    (cleanAPIKeyHeader header = stripBearer (goTrimSpace header)) ∧
    (∀ (db : DB) (now : Int), APIKeyAuthMiddleware db now header =
      APIKeyAuthMiddlewareWith (Service.ValidateAPIKey db now) header) := by
  refine ⟨?_, ?_, ?_, ?_, rfl, fun db now => rfl⟩
  · intro h
    unfold APIKeyAuthMiddlewareWith
    rw [if_pos h]
  · intro h hc
    unfold APIKeyAuthMiddlewareWith
    rw [if_neg h, if_pos hc]
  · intro h hc e he
    unfold APIKeyAuthMiddlewareWith
    rw [if_neg h, if_neg hc, he]
  · intro h hc ak hak
    unfold APIKeyAuthMiddlewareWith
    rw [if_neg h, if_neg hc, hak]

/-- C9 witness: a whitespace-only header is non-empty yet normalises to
empty, and the gate rejects it without consulting validation. -/
theorem auth_gate_contract_witness :
    APIKeyAuthMiddlewareWith (fun _ => .error "x") " " =
      .rejected 401 ⟨"Unauthorized", "API key cannot be empty"⟩ :=
  (auth_gate_contract (fun _ => .error "x") " ").2.1 (by decide) (by decide)

/-- C10: the lifecycle service's update validates both the ID and the
name before any store operation runs: a zero ID fails with the invalid-ID
message and an empty name fails with "name is required", for every store
the service could be wired to. -/
theorem update_service_validation (σ : Type)
    (getByID : Nat → Except String APIKey)
    (updateRec : APIKey → Except String (σ × APIKey))
    (id : Nat) (req : UpdateAPIKeyRequest) :
    (id = 0 → Service.UpdateAPIKeyWith σ getByID updateRec id req =
      .error "invalid API key ID") ∧
    (id ≠ 0 → req.name = "" → Service.UpdateAPIKeyWith σ getByID updateRec id req =
      .error "name is required") := by
  constructor
  · intro h
    unfold Service.UpdateAPIKeyWith
    rw [if_pos h]
  · intro h hn
    unfold Service.UpdateAPIKeyWith
    rw [if_neg h, if_pos hn]

/-- C10 witness: with a store whose every operation fails loudly, a
non-zero ID and an empty name still produce the name-validation error,
showing the store is never reached. -/
theorem update_service_validation_witness :
    Service.UpdateAPIKeyWith Unit (fun _ => .error "boom") (fun _ => .error "boom")
      1 { name := "", description := "", active := true, expiresAt := none } =
      .error "name is required" :=
  (update_service_validation Unit (fun _ => .error "boom") (fun _ => .error "boom")
      1 { name := "", description := "", active := true, expiresAt := none }).2
    (by decide) rfl

/-- C1 counterexample: against a store holding one deactivated record for
the secret `"k1"`, validating the unknown secret `"unknown"` and
validating the known-but-inactive secret `"k1"` return errors with
different messages — and in this codebase error messages are the error
classes (handlers select status codes by comparing them) — so the two
failure cases are distinguishable by the caller of validate. -/
theorem validate_failure_cases_distinguishable :
    Service.ValidateAPIKey dbInactive 5 "unknown" = .error "invalid API key" ∧
    Service.ValidateAPIKey dbInactive 5 "k1" = .error "API key is not valid" ∧
    ("invalid API key" : String) ≠ "API key is not valid" := by
  decide

/-- C1 amended: an unknown secret fails with "invalid API key" and a
found-but-invalid secret fails with the different message "API key is not
valid", so the immediate caller can tell the cases apart; the
indistinguishability the spec aims at holds only one layer up, at the
gate, which maps every validation failure to the identical 401
response. -/
theorem validate_failure_classes (db : DB) (now : Int) (key : String)
    (hk : key ≠ "") :
    (∀ e, Repo.GetByKey db (HashAPIKey key) = .error e →
      Service.ValidateAPIKey db now key = .error "invalid API key") ∧
    (∀ ak, Repo.GetByKey db (HashAPIKey key) = .ok ak → ak.IsValid now = false →
      Service.ValidateAPIKey db now key = .error "API key is not valid") ∧
    (∀ (v1 v2 : String → Except String APIKey) (header : String) (e1 e2 : String),
      v1 (cleanAPIKeyHeader header) = .error e1 →
      v2 (cleanAPIKeyHeader header) = .error e2 →
      APIKeyAuthMiddlewareWith v1 header = APIKeyAuthMiddlewareWith v2 header) := by
  refine ⟨?_, ?_, ?_⟩
  · intro e he
    unfold Service.ValidateAPIKey Service.ValidateAPIKeyWith
    rw [if_neg hk, he]
  · intro ak hak hinv
    unfold Service.ValidateAPIKey Service.ValidateAPIKeyWith
    rw [if_neg hk, hak]
    simp [hinv]
  · intro v1 v2 header e1 e2 h1 h2
    unfold APIKeyAuthMiddlewareWith
    by_cases hh : header = ""
    · rw [if_pos hh, if_pos hh]
    · rw [if_neg hh, if_neg hh]
      by_cases hc : cleanAPIKeyHeader header = ""
      · rw [if_pos hc, if_pos hc]
      · rw [if_neg hc, if_neg hc, h1, h2]

/-- C1 witness: validating an unknown secret against the empty store
fails with the not-found-side message. -/
theorem validate_failure_classes_witness :
    Service.ValidateAPIKey dbEmpty 0 "k1" = .error "invalid API key" :=
  (validate_failure_classes dbEmpty 0 "k1" (by decide)).1
    "API key not found" (by decide)

/-- C2 counterexample: a record whose `expiresAt` equals the current
instant is judged VALID by the code (Go `time.Now().After(exp)` is a
strict comparison, so at `now = exp` the key is not yet expired), while
the claim says such a record is invalid: validation of `"k1"` at instant 5
against a store whose record expires at instant 5 succeeds. -/
theorem validate_at_expiry_instant :
    Service.ValidateAPIKey dbBoundary 5 "k1" = .ok akBoundary ∧
    akBoundary.expiresAt = some 5 ∧
    akBoundary.active = true ∧
    akBoundary.IsValid 5 = true := by
  decide

/-- C2 amended: a found record is judged valid iff its active flag is true
AND (its `expiresAt` is absent OR its `expiresAt` is at-or-after the
current instant) — i.e. the expiry comparison is non-strict on the record's
side: a record whose `expiresAt` equals the current instant is still
valid. -/
theorem validate_validity_policy (db : DB) (now : Int) (key : String)
    (ak : APIKey) (hk : key ≠ "")
    (hak : Repo.GetByKey db (HashAPIKey key) = .ok ak) :
    (ak.IsValid now = true ↔
      ak.active = true ∧ ∀ e, ak.expiresAt = some e → now ≤ e) ∧
    (Service.ValidateAPIKey db now key = .ok ak ↔ ak.IsValid now = true) := by
  constructor
  · unfold APIKey.IsValid APIKey.IsExpired
    cases hexp : ak.expiresAt with
    | none =>
      simp
    | some e =>
      simp only [Bool.and_eq_true, Bool.not_eq_true', decide_eq_false_iff_not,
        not_lt, Option.some.injEq]
      constructor
      · rintro ⟨h1, h2⟩
        exact ⟨h1, fun e2 he2 => he2 ▸ h2⟩
      · rintro ⟨h1, h2⟩
        exact ⟨h1, h2 e rfl⟩
  · unfold Service.ValidateAPIKey Service.ValidateAPIKeyWith
    rw [if_neg hk, hak]
    show (if (!ak.IsValid now) = true then Except.error "API key is not valid"
        else Except.ok ak) = Except.ok ak ↔ ak.IsValid now = true
    cases hvv : ak.IsValid now with
    | false => simp
    | true => simp

/-- C2 witness: an active, never-expiring record validates successfully
through the policy. -/
theorem validate_validity_policy_witness :
    Service.ValidateAPIKey dbLive 0 "k2" = .ok akLive :=
  (validate_validity_policy dbLive 0 "k2" akLive (by decide) (by decide)).2.mpr
    (by decide)

/-- C7: a successful store update starts from the existing row with the
given ID and writes back that row with only name, description, active and
expiry taken from the request (plus the store-maintained `updatedAt`); the
stored secret hash, the ID, the creation timestamp and the soft-delete
marker are unchanged, the identity counter is untouched, and every other
row survives unchanged. -/
theorem update_frame (db : DB) (now : Int) (ak : APIKey) (db2 : DB)
    (saved : APIKey) (h : Repo.Update db now ak = .ok (db2, saved)) :
    ∃ old, Repo.GetByID db ak.id = .ok old ∧
      saved.key = old.key ∧
      saved.id = old.id ∧
      saved.createdAt = old.createdAt ∧
      saved.deletedAt = old.deletedAt ∧
      saved.name = ak.name ∧
      saved.description = ak.description ∧
      saved.active = ak.active ∧
      saved.expiresAt = ak.expiresAt ∧
      saved.updatedAt = now ∧
      db2.nextId = db.nextId ∧
      db2.rows = db.rows.map (fun r => if rowHasId saved.id r then saved else r) ∧
      ∀ r ∈ db.rows, rowHasId saved.id r = false → r ∈ db2.rows := by
  unfold Repo.Update at h
  by_cases h0 : ak.id = 0
  · rw [if_pos h0] at h
    cases h
  · rw [if_neg h0] at h
    by_cases h1 : ak.name = ""
    · rw [if_pos h1] at h
      cases h
    · rw [if_neg h1] at h
      cases hg : Repo.GetByID db ak.id with
      | error e =>
        rw [hg] at h
        cases h
      | ok old =>
        rw [hg] at h
        rw [Except.ok.injEq, Prod.mk.injEq] at h
        obtain ⟨hdb2, hsaved⟩ := h
        subst hdb2
        subst hsaved
        refine ⟨old, rfl, rfl, rfl, rfl, rfl, rfl, rfl, rfl, rfl, rfl, rfl,
          rfl, ?_⟩
        intro r hr hcond
        refine List.mem_map.mpr ⟨r, hr, ?_⟩
        simp [hcond]

/-- C7 witness: updating the one-row store `dbRowA` with the payload
`akUpd` (whose `key` field differs from the stored hash) leaves the hash,
ID, creation timestamp and delete marker intact while taking over the four
mutable fields. -/
theorem update_frame_witness :
    ∃ old, Repo.GetByID dbRowA akUpd.id = .ok old ∧
      akSaved.key = old.key ∧
      akSaved.id = old.id ∧
      akSaved.createdAt = old.createdAt ∧
      akSaved.deletedAt = old.deletedAt ∧
      akSaved.name = akUpd.name ∧
      akSaved.description = akUpd.description ∧
      akSaved.active = akUpd.active ∧
      akSaved.expiresAt = akUpd.expiresAt ∧
      akSaved.updatedAt = 3 ∧
      dbSaved.nextId = dbRowA.nextId ∧
      dbSaved.rows =
        dbRowA.rows.map (fun r => if rowHasId akSaved.id r then akSaved else r) ∧
      ∀ r ∈ dbRowA.rows, rowHasId akSaved.id r = false → r ∈ dbSaved.rows :=
  update_frame dbRowA 3 akUpd dbSaved akSaved (by decide)

/-- C8: the store's create fails with the duplicate-key message when a
non-deleted record with the same stored hash exists, fails with the
validation messages when the name or the hash is empty, and otherwise
appends the record (with identity and timestamps assigned) — and creation
preserves the invariant that no two non-deleted stored records share a
hash. -/
theorem create_store_contract (db : DB) (now : Int) (ak : APIKey) :
    (ak.name = "" → Repo.Create db now ak = .error "name is required") ∧
    (ak.name ≠ "" → ak.key = "" → Repo.Create db now ak = .error "key is required") ∧
    (ak.name ≠ "" → ak.key ≠ "" → ExistsByKey db ak.key = true →
      Repo.Create db now ak = .error "API key already exists") ∧
    (ak.name ≠ "" → ak.key ≠ "" → ExistsByKey db ak.key = false →
      ∃ stored, Repo.Create db now ak =
        .ok ({ rows := db.rows ++ [stored], nextId := db.nextId + 1 }, stored) ∧
        stored.key = ak.key ∧ stored.name = ak.name ∧
        stored.deletedAt = ak.deletedAt) ∧
    (∀ db2 stored, UniqueHashes db → Repo.Create db now ak = .ok (db2, stored) →
      UniqueHashes db2) := by
  refine ⟨?_, ?_, ?_, ?_, ?_⟩
  · intro h
    unfold Repo.Create
    rw [if_pos h]
  · intro hn h
    unfold Repo.Create
    rw [if_neg hn, if_pos h]
  · intro hn hk hex
    unfold Repo.Create
    rw [if_neg hn, if_neg hk, if_pos hex]
  · intro hn hk hex
    refine ⟨{ ak with
      id := if ak.id = 0 then db.nextId else ak.id
      createdAt := now
      updatedAt := now }, ?_, rfl, rfl, rfl⟩
    unfold Repo.Create
    rw [if_neg hn, if_neg hk, if_neg]
    rw [hex]
    exact Bool.false_ne_true
  · intro db2 stored huniq h
    unfold Repo.Create at h
    by_cases h1 : ak.name = ""
    · rw [if_pos h1] at h
      cases h
    · rw [if_neg h1] at h
      by_cases h2 : ak.key = ""
      · rw [if_pos h2] at h
        cases h
      · rw [if_neg h2] at h
        by_cases h3 : ExistsByKey db ak.key = true
        · rw [if_pos h3] at h
          cases h
        · rw [if_neg h3] at h
          rw [Except.ok.injEq, Prod.mk.injEq] at h
          obtain ⟨hdb2, hstored⟩ := h
          subst hdb2
          have hrows := existsByKey_false_rows db ak.key h2
            (Bool.not_eq_true _ ▸ h3)
          unfold UniqueHashes at huniq ⊢
          rw [List.pairwise_append]
          refine ⟨huniq, List.pairwise_singleton _ _, ?_⟩
          intro a ha b hb hadel hbdel
          rw [List.mem_singleton] at hb
          subst hb
          have hfalse := hrows a ha
          unfold rowHasKey at hfalse
          rw [Bool.and_eq_false_iff] at hfalse
          rcases hfalse with hf | hf
          · rw [Option.isNone_eq_false_iff, Option.isSome_iff_ne_none] at hf
            exact absurd hadel hf
          · rw [beq_eq_false_iff_ne] at hf
            intro hkey
            exact hf hkey

/-- C8 witness: inserting a fresh record with a new hash into the one-row
store succeeds and appends it. -/
theorem create_store_contract_witness :
    ∃ stored, Repo.Create dbRowA 3 akNew =
      .ok ({ rows := dbRowA.rows ++ [stored], nextId := dbRowA.nextId + 1 },
        stored) ∧
      stored.key = akNew.key ∧ stored.name = akNew.name ∧
      stored.deletedAt = akNew.deletedAt :=
  (create_store_contract dbRowA 3 akNew).2.2.2.1 (by decide) (by decide) (by decide)

/-- C6: creating a key with any non-empty name (and no expiry) through the
service, in any store state that does not already hold the generated
secret's hash (i.e. whenever creation succeeds), and immediately validating
the plaintext returned in the creation response succeeds and returns a
record whose name is the name given at creation. -/
theorem create_validate_round_trip (db : DB) (now : Int) (bytes : List Nat)
    (name descr : String) (hname : name ≠ "")
    (hfresh : ExistsByKey db (HashAPIKey (GenerateAPIKey bytes)) = false) :
    ∃ db2 resp ak,
      Service.CreateAPIKey db now bytes
        { name := name, description := descr, expiresAt := none } =
        .ok (db2, resp) ∧
      Service.ValidateAPIKey db2 now resp.key = .ok ak ∧
      ak.name = name := by
  have hplain : GenerateAPIKey bytes ≠ "" := GenerateAPIKey_ne_empty bytes
  have hhash : HashAPIKey (GenerateAPIKey bytes) ≠ "" := HashAPIKey_ne_empty _
  refine ⟨{ rows := db.rows ++ [createdRec db now bytes name descr]
            nextId := db.nextId + 1 },
    (createdRec db now bytes name descr).ToResponseWithKey (GenerateAPIKey bytes),
    createdRec db now bytes name descr, ?_, ?_, rfl⟩
  · have hex : ¬(ExistsByKey db (HashAPIKey (GenerateAPIKey bytes)) = true) := by
      rw [hfresh]
      exact Bool.false_ne_true
    simp only [Service.CreateAPIKey, Repo.Create, APIKey.FromCreateRequest]
    rw [if_neg hname, if_neg hhash, if_neg hex]
    simp [createdRec, hname]
  · simp only [APIKey.ToResponseWithKey, Service.ValidateAPIKey,
      Service.ValidateAPIKeyWith, Repo.GetByKey, createdRec]
    rw [if_neg hplain, if_neg hhash,
      find?_append_of_forall_false _ _ _
        (existsByKey_false_rows db _ hhash hfresh)]
    simp [List.find?, rowHasKey, APIKey.IsValid, APIKey.IsExpired]

set_option maxRecDepth 100000 in
/-- C6 witness: a concrete round trip from the empty store with the name
"ops" and an all-zero entropy read. -/
theorem create_validate_round_trip_witness :
    ∃ db2 resp ak,
      Service.CreateAPIKey dbEmpty 0 (List.replicate 32 0)
        { name := "ops", description := "", expiresAt := none } =
        .ok (db2, resp) ∧
      Service.ValidateAPIKey db2 0 resp.key = .ok ak ∧
      ak.name = "ops" :=
  create_validate_round_trip dbEmpty 0 (List.replicate 32 0) "ops" ""
    (by decide) (by decide)

end GoGrafana
